import Mathlib

set_option maxRecDepth 16384

/-!
Verification of the ncmpp NCM container decoder against its specification.

The definitions below are a shallow embedding of the C++ sources:
  - `pad_size`, `unpad`            from src/ncmlib/src/pkcs7.cpp
  - `little_int`, `hex2str`        from src/ncmlib/src/utils.cpp
  - `setup_key_box`                from NcmFile::_setup_key_box (NcmFile.cpp)
  - `descramble_chunk`             from the loop in NcmFile::_dump_audio_data
  - `read_key_data`, `read_metadata_body`, `dump_audio`, `ncm_dump`
                                   from the corresponding NcmFile methods.

Bytes are modelled as `Nat` (file bytes are < 256); C `unsigned int`
arithmetic that can wrap is modelled with explicit `% 2^32` where the wrap
is observable.  External collaborators (OpenSSL EVP AES, base64, rapidjson
parsing, filesystem opens) are parameters gathered in `Collab`.
-/

/-- Model of `pkcs7::pad_size` (pkcs7.cpp lines 21-41).  `none` models a
thrown `std::runtime_error` (both the length check and the byte check).
The C validation loop is `for (unsigned int i = len_ - padlen; i < len_; i++)`;
`len_ - padlen` is computed in unsigned 32-bit arithmetic, so it is modelled
as `(len + 2^32 - padlen) % 2^32`, which also is the returned value. -/
def pad_size (src : List Nat) : Option Nat :=
  if src.length = 0 then some 0
  else
    let len := src.length
    let padlen := src.getD (len - 1) 0
    if padlen = 0 ∨ 16 < padlen then none
    else
      let start := (len + 2 ^ 32 - padlen) % 2 ^ 32
      if (List.range' start (len - start)).all (fun i => src.getD i 0 == padlen)
      then some start
      else none

/-- Model of `pkcs7::unpad` (pkcs7.cpp lines 51-56): copy the first
`pad_size` bytes.  When `pad_size` exceeds the buffer length (the wrap case)
the C code copies out of bounds; the model clamps to the available bytes. -/
def unpad (src : List Nat) : Option (List Nat) :=
  (pad_size src).map (fun n => src.take n)

/-- Model of `ncm::utils::little_int` (utils.cpp lines 51-64): the loop
folds the four bytes from index 3 down to 0 as `result = result*256 + b`. -/
def little_int (src : List Nat) : Nat :=
  ((src.getD 3 0 * 256 + src.getD 2 0) * 256 + src.getD 1 0) * 256 + src.getD 0 0

/-- Value of one hexadecimal character as parsed by
`std::stringstream >> std::hex` for the valid hex digits; the source writes
0 for characters the stream fails to parse. -/
def hexDigitVal (c : Char) : Nat :=
  if '0' ≤ c ∧ c ≤ '9' then c.toNat - 48
  else if 'A' ≤ c ∧ c ≤ 'F' then c.toNat - 55
  else if 'a' ≤ c ∧ c ≤ 'f' then c.toNat - 87
  else 0

/-- Model of `ncm::utils::hex2str` (utils.cpp lines 22-43): the first 32
characters are read as 16 two-character hex pairs. -/
def hex2str (src : String) : List Nat :=
  (List.range 16).map (fun i =>
    16 * hexDigitVal (src.toList.getD (2 * i) 'x')
      + hexDigitVal (src.toList.getD (2 * i + 1) 'x'))

/-- The fixed AES-128 core-key hex string `CORE_HEX_KEY` (NcmFile.cpp line 34). -/
def CORE_HEX_KEY : String := "687A4852416D736F356B496E62617857"

/-- The fixed AES-128 metadata-key hex string `META_HEX_KEY` (NcmFile.cpp line 40). -/
def META_HEX_KEY : String := "2331346C6A6B5F215C5D2630553C2728"

/-- The 16 core-key bytes, as `hex2str(CORE_HEX_KEY, core_key)` computes them. -/
def coreKeyBytes : List Nat := hex2str CORE_HEX_KEY

/-- The 16 metadata-key bytes, as `hex2str(META_HEX_KEY, mata_key)` computes them. -/
def metaKeyBytes : List Nat := hex2str META_HEX_KEY

example : pad_size [] = some 0 := by decide
example : pad_size [9, 4, 4, 4, 4] = some 1 := by decide
example : pad_size [9, 5, 3] = none := by decide
example : pad_size [5] = some 4294967292 := by decide
example : little_int [1, 0, 0, 0] = 1 := by decide
example : little_int [255, 255, 255, 255] = 4294967295 := by decide
example : coreKeyBytes =
    [0x68, 0x7A, 0x48, 0x52, 0x41, 0x6D, 0x73, 0x6F,
     0x35, 0x6B, 0x49, 0x6E, 0x62, 0x61, 0x78, 0x57] := by decide

theorem pad_size_nil : pad_size [] = some 0 := by decide

theorem length_pos_of_ne_nil {src : List Nat} (hne : src ≠ []) : 0 < src.length :=
  List.length_pos.mpr hne

/-- If the last byte is 0 or above 16, `pad_size` throws. -/
theorem pad_size_invalid_len {src : List Nat} (hne : src ≠ [])
    (hbad : src.getD (src.length - 1) 0 = 0 ∨ 16 < src.getD (src.length - 1) 0) :
    pad_size src = none := by
  have h0 : ¬ src.length = 0 := Nat.pos_iff_ne_zero.mp (length_pos_of_ne_nil hne)
  simp only [pad_size, if_neg h0]
  rw [if_pos hbad]

/-- The indexed validation loop over `range'` checks exactly the suffix bytes. -/
theorem range'_all_eq_drop_all (src : List Nat) (p : Nat) :
    ∀ (k s : Nat), s + k = src.length →
      ((List.range' s k).all fun i => src.getD i 0 == p) =
        ((src.drop s).all fun b => b == p) := by
  intro k
  induction k with
  | zero =>
    intro s hs
    have : src.length ≤ s := Nat.le_of_eq (by omega)
    simp [List.drop_eq_nil_of_le this]
  | succ k ih =>
    intro s hs
    have hslt : s < src.length := by omega
    rw [List.range'_succ, List.drop_eq_getElem_cons hslt]
    simp only [List.all_cons]
    rw [ih (s + 1) (by omega)]
    have : src.getD s 0 = src[s] := by
      rw [List.getD_eq_getElem?_getD, List.getElem?_eq_getElem hslt]
      rfl
    rw [this]

/-- Wrap case of `pad_size`: a plausible pad byte larger than the buffer makes
the unsigned loop start wrap past the end, so no byte is checked and the
wrapped difference is returned. -/
theorem pad_size_wrap {src : List Nat} (hne : src ≠ [])
    (h1 : 1 ≤ src.getD (src.length - 1) 0) (h16 : src.getD (src.length - 1) 0 ≤ 16)
    (hgt : src.length < src.getD (src.length - 1) 0) :
    pad_size src = some (src.length + 2 ^ 32 - src.getD (src.length - 1) 0) := by
  have h0 : ¬ src.length = 0 := Nat.pos_iff_ne_zero.mp (length_pos_of_ne_nil hne)
  have hbad : ¬ (src.getD (src.length - 1) 0 = 0 ∨ 16 < src.getD (src.length - 1) 0) := by
    omega
  simp only [pad_size, if_neg h0, if_neg hbad]
  have hstart : (src.length + 2 ^ 32 - src.getD (src.length - 1) 0) % 2 ^ 32
      = src.length + 2 ^ 32 - src.getD (src.length - 1) 0 := by
    apply Nat.mod_eq_of_lt
    omega
  rw [hstart]
  have hempty : src.length - (src.length + 2 ^ 32 - src.getD (src.length - 1) 0) = 0 := by
    omega
  rw [hempty]
  simp

/-- Normal case of `pad_size`: pad byte within bounds, so the result is the
suffix check followed by `len - p`. -/
theorem pad_size_valid_if {src : List Nat} (hne : src ≠ []) (hlen : src.length < 2 ^ 32)
    (h1 : 1 ≤ src.getD (src.length - 1) 0) (h16 : src.getD (src.length - 1) 0 ≤ 16)
    (hple : src.getD (src.length - 1) 0 ≤ src.length) :
    pad_size src =
      if (src.drop (src.length - src.getD (src.length - 1) 0)).all
          (fun b => b == src.getD (src.length - 1) 0)
      then some (src.length - src.getD (src.length - 1) 0)
      else none := by
  have h0 : ¬ src.length = 0 := Nat.pos_iff_ne_zero.mp (length_pos_of_ne_nil hne)
  have hbad : ¬ (src.getD (src.length - 1) 0 = 0 ∨ 16 < src.getD (src.length - 1) 0) := by
    omega
  simp only [pad_size, if_neg h0, if_neg hbad]
  have hstart : (src.length + 2 ^ 32 - src.getD (src.length - 1) 0) % 2 ^ 32
      = src.length - src.getD (src.length - 1) 0 := by
    have : src.length + 2 ^ 32 - src.getD (src.length - 1) 0
        = (src.length - src.getD (src.length - 1) 0) + 2 ^ 32 := by omega
    rw [this, Nat.add_mod_right, Nat.mod_eq_of_lt (by omega)]
  rw [hstart]
  have hk : src.length - (src.length - src.getD (src.length - 1) 0)
      = src.getD (src.length - 1) 0 := by omega
  rw [hk, range'_all_eq_drop_all src _ _ _ (by omega)]

/-- The last byte of `pre ++ l` is the last byte of `l` when `l` is non-empty. -/
theorem getD_last_append (pre l : List Nat) (hne : l ≠ []) :
    (pre ++ l).getD ((pre ++ l).length - 1) 0 = l.getD (l.length - 1) 0 := by
  have hl : 0 < l.length := List.length_pos.mpr hne
  have hlen : (pre ++ l).length = pre.length + l.length := by simp
  rw [List.getD_eq_getElem?_getD, List.getD_eq_getElem?_getD,
    List.getElem?_append_right (by rw [hlen]; omega)]
  have hidx : (pre ++ l).length - 1 - pre.length = l.length - 1 := by
    rw [hlen]; omega
  rw [hidx]

/-- The C6 claim about `pkcs7::pad_size`, specialised at one buffer: the
call succeeds exactly when the last byte `p` is in `1..16` and the last `p`
bytes all equal `p`, and on success it returns `length - p`. -/
def pad_size_claim_at (src : List Nat) : Prop :=
  ((pad_size src).isSome ↔
      (1 ≤ src.getD (src.length - 1) 0 ∧ src.getD (src.length - 1) 0 ≤ 16 ∧
       src.getD (src.length - 1) 0 ≤ src.length ∧
       ((src.drop (src.length - src.getD (src.length - 1) 0)).all
         (fun b => b == src.getD (src.length - 1) 0)) = true))
  ∧ (pad_size src = none ∨
      pad_size src = some (src.length - src.getD (src.length - 1) 0))

/-- Reference behaviour for the amended C6 claim: `pad_size` fails unless
the last byte `p` is in `1..16`; if moreover `p` does not exceed the length,
the last `p` bytes must all equal `p` and the result is `length - p`; if
`p` exceeds the length the unsigned loop start wraps, nothing is validated,
and the (wrapped) value `length + 2^32 - p` is returned without error. -/
def pad_size_expected (src : List Nat) : Option Nat :=
  if src = [] then some 0
  else
    let p := src.getD (src.length - 1) 0
    if 1 ≤ p ∧ p ≤ 16 then
      if p ≤ src.length then
        if (src.drop (src.length - p)).all (fun b => b == p)
        then some (src.length - p)
        else none
      else some (src.length + 2 ^ 32 - p)
    else none

/-- C6 counterexample: the one-byte buffer `[0x05]` has last byte 5 with
`1 ≤ 5 ≤ 16` but fewer than 5 bytes, so by the claim it must be rejected
as invalid padding; the code instead succeeds, returning the wrapped
unsigned value 4294967292. -/
theorem ncm_C6_pad_size_counterexample : ¬ pad_size_claim_at [5] := by
  intro h
  have h2 := h.1.mp (by decide)
  exact absurd h2.2.2.1 (by decide)

/-- C6 (amended): `pad_size` behaves as `pad_size_expected` on every buffer
of u32-representable length; every buffer ending in four `0x04` bytes
un-pads to `length - 4`; every buffer of at least 3 bytes ending in
`0x05, 0x03` is rejected; the empty buffer un-pads to length 0. -/
theorem ncm_C6_pad_size_amended :
    (∀ src : List Nat, src.length < 2 ^ 32 → pad_size src = pad_size_expected src)
    ∧ (∀ pre : List Nat, pre.length + 4 < 2 ^ 32 →
        pad_size (pre ++ [4, 4, 4, 4]) = some pre.length)
    ∧ (∀ pre : List Nat, pre ≠ [] → pre.length + 2 < 2 ^ 32 →
        pad_size (pre ++ [5, 3]) = none)
    ∧ pad_size [] = some 0 := by
  refine ⟨?_, ?_, ?_, by decide⟩
  · intro src hlen
    by_cases hne : src = []
    · subst hne; decide
    · have h0 : ¬ src.length = 0 := Nat.pos_iff_ne_zero.mp (length_pos_of_ne_nil hne)
      rw [pad_size_expected, if_neg hne]
      by_cases hp : 1 ≤ src.getD (src.length - 1) 0 ∧ src.getD (src.length - 1) 0 ≤ 16
      · rw [if_pos hp]
        by_cases hple : src.getD (src.length - 1) 0 ≤ src.length
        · rw [if_pos hple]
          exact pad_size_valid_if hne hlen hp.1 hp.2 hple
        · rw [if_neg hple]
          exact pad_size_wrap hne hp.1 hp.2 (by omega)
      · rw [if_neg hp]
        exact pad_size_invalid_len hne (by omega)
  · intro pre hlen
    have hne : pre ++ [4, 4, 4, 4] ≠ [] := by simp
    have hlast : (pre ++ [4, 4, 4, 4]).getD ((pre ++ [4, 4, 4, 4]).length - 1) 0 = 4 := by
      rw [getD_last_append pre _ (by simp)]
      rfl
    have hlen4 : (pre ++ [4, 4, 4, 4]).length = pre.length + 4 := by simp
    rw [pad_size_valid_if hne (by omega) (by omega) (by omega) (by omega)]
    rw [hlast, hlen4]
    have hd : pre.length + 4 - 4 = pre.length := by omega
    rw [hd, List.drop_left]
    simp
  · intro pre hne hlen
    have hne2 : pre ++ [5, 3] ≠ [] := by simp
    have hlast : (pre ++ [5, 3]).getD ((pre ++ [5, 3]).length - 1) 0 = 3 := by
      rw [getD_last_append pre _ (by simp)]
      rfl
    have hlen2 : (pre ++ [5, 3]).length = pre.length + 2 := by simp
    have hple : (3 : Nat) ≤ pre.length + 2 := by
      have := length_pos_of_ne_nil hne
      omega
    rw [pad_size_valid_if hne2 (by omega) (by omega) (by omega) (by omega)]
    rw [hlast, hlen2]
    have hd : pre.length + 2 - 3 ≤ pre.length := by omega
    rw [List.drop_append_of_le_length hd]
    rw [List.all_append]
    simp

/-- C6 witness: the amended theorem applied at concrete buffers, covering
the general clause, the `0x04` run, the mismatched `0x05, 0x03` run and the
empty buffer. -/
theorem ncm_C6_pad_size_amended_witness :
    pad_size [7, 2, 2] = pad_size_expected [7, 2, 2]
    ∧ pad_size [9, 4, 4, 4, 4] = some 1
    ∧ pad_size [9, 5, 3] = none
    ∧ pad_size [] = some 0 :=
  ⟨ncm_C6_pad_size_amended.1 [7, 2, 2] (by decide),
   ncm_C6_pad_size_amended.2.1 [9] (by decide),
   ncm_C6_pad_size_amended.2.2.1 [9] (by decide) (by decide),
   ncm_C6_pad_size_amended.2.2.2⟩

/-- C10: a buffer of length `L ≥ 1` whose last byte `p` is in `1..16` but
exceeds `L` makes the validation loop start index wrap in unsigned 32-bit
arithmetic, so the loop never runs; no error is raised and the returned
value is `(L - p) mod 2^32`, which is larger than the input length. -/
theorem ncm_C10_pad_size_wrap_returns (src : List Nat) (hne : src ≠ [])
    (h1 : 1 ≤ src.getD (src.length - 1) 0) (h16 : src.getD (src.length - 1) 0 ≤ 16)
    (hgt : src.length < src.getD (src.length - 1) 0) :
    pad_size src = some ((src.length + 2 ^ 32 - src.getD (src.length - 1) 0) % 2 ^ 32)
    ∧ src.length < (src.length + 2 ^ 32 - src.getD (src.length - 1) 0) % 2 ^ 32 := by
  have hmod : (src.length + 2 ^ 32 - src.getD (src.length - 1) 0) % 2 ^ 32
      = src.length + 2 ^ 32 - src.getD (src.length - 1) 0 := by
    apply Nat.mod_eq_of_lt
    omega
  rw [hmod]
  exact ⟨pad_size_wrap hne h1 h16 hgt, by omega⟩

/-- C10 witness: the buffer `[0x05]` evaluates to the wrapped size
4294967292, larger than its length 1. -/
theorem ncm_C10_pad_size_wrap_witness :
    ([5] : List Nat) ≠ [] ∧ (1 : Nat) ≤ 5 ∧ (5 : Nat) ≤ 16 ∧ (1 : Nat) < 5 ∧
    (pad_size [5] = some ((1 + 2 ^ 32 - 5) % 2 ^ 32) ∧ 1 < (1 + 2 ^ 32 - 5) % 2 ^ 32) :=
  ⟨by decide, by decide, by decide, by decide,
   ncm_C10_pad_size_wrap_returns [5] (by decide) (by decide) (by decide) (by decide)⟩

/-- At an in-bounds index, `getD` is the indexed element. -/
theorem getD_eq_getElem_of_lt (l : List Nat) (i : Nat) (h : i < l.length) :
    l.getD i 0 = l[i] := by
  rw [List.getD_eq_getElem?_getD, List.getElem?_eq_getElem h]
  rfl

/-- Setting one in-bounds entry exchanges its count contribution. -/
theorem count_set_add (a v : Nat) :
    ∀ (l : List Nat) (i : Nat), i < l.length →
      (l.set i v).count a + (if l.getD i 0 = a then 1 else 0)
        = l.count a + (if v = a then 1 else 0) := by
  intro l
  induction l with
  | nil => intro i hi; simp at hi
  | cons b t ih =>
    intro i hi
    cases i with
    | zero =>
      simp only [List.set_cons_zero, List.count_cons, List.getD_cons_zero, beq_iff_eq]
      split_ifs <;> omega
    | succ i =>
      have hi' : i < t.length := by simpa using hi
      have h := ih i hi'
      simp only [List.set_cons_succ, List.count_cons, List.getD_cons_succ, beq_iff_eq]
      split_ifs at h ⊢ <;> omega

/-- The two-write pattern `box[i] = box[c]; box[c] = swap` of the key
scheduling loop permutes the table. -/
theorem set_set_swap_perm (l : List Nat) (i c : Nat) (hi : i < l.length)
    (hc : c < l.length) :
    ((l.set i (l.getD c 0)).set c (l.getD i 0)).Perm l := by
  by_cases hic : i = c
  · subst hic
    have h1 : l.set i (l.getD i 0) = l := by
      apply List.ext_getElem (by simp)
      intro n h1 h2
      rw [List.getElem_set]
      split
      · next heq => subst heq; exact getD_eq_getElem_of_lt l i hi
      · rfl
    rw [h1, h1]
  · rw [List.perm_iff_count]
    intro a
    have hc2 : c < (l.set i (l.getD c 0)).length := by simpa using hc
    have h2 := count_set_add a (l.getD i 0) (l.set i (l.getD c 0)) c hc2
    have h3 : (l.set i (l.getD c 0)).getD c 0 = l.getD c 0 := by
      rw [getD_eq_getElem_of_lt _ c hc2, List.getElem_set, if_neg hic]
      exact (getD_eq_getElem_of_lt l c hc).symm
    rw [h3] at h2
    have h1 := count_set_add a (l.getD c 0) l i hi
    split_ifs at h1 h2 <;> omega

/-- State of the `_setup_key_box` loop (NcmFile.cpp lines 199-214): the
256-entry box, the rolling `last_byte` accumulator and the seed offset. -/
structure KBState where
  box : List Nat
  lastByte : Nat
  keyOffset : Nat
deriving DecidableEq

/-- One iteration of the RC4-like key scheduling loop of
`NcmFile::_setup_key_box` (NcmFile.cpp lines 204-214).  `seed` is
`key_data.data() + 17`; a read past its end (undefined behaviour in the
source) is modelled as `none`. -/
def key_box_step (seed : List Nat) (L : Nat) : Option KBState → Nat → Option KBState
  | none, _ => none
  | some st, i =>
    match seed[st.keyOffset]? with
    | none => none
    | some kb =>
      let sw := st.box.getD i 0
      let c := (sw + st.lastByte + kb) % 256
      let off := if st.keyOffset + 1 ≥ L then 0 else st.keyOffset + 1
      some ⟨(st.box.set i (st.box.getD c 0)).set c sw, c, off⟩

/-- The key box state after the first `k` iterations of the scheduling
loop, starting from the identity table.  The reset threshold
`key_len_unpad - 17` is computed here with truncating `Nat` subtraction;
in the source it is unsigned and wraps for lengths below 17, but in both
readings every seed read is then already out of bounds at iteration 0, so
the observable result (`none`) is identical. -/
def setup_key_box_t (kd : List Nat) (k : Nat) : Option KBState :=
  (List.range k).foldl (key_box_step (kd.drop 17) (kd.length - 17))
    (some ⟨List.range 256, 0, 0⟩)

/-- Model of `NcmFile::_setup_key_box` (NcmFile.cpp lines 185-217): run all
256 iterations and keep the box. -/
def setup_key_box (kd : List Nat) : Option (List Nat) :=
  (setup_key_box_t kd 256).map KBState.box

theorem key_box_step_none (seed : List Nat) (L i : Nat) :
    key_box_step seed L none i = none := rfl

theorem foldl_key_box_step_none (seed : List Nat) (L : Nat) :
    ∀ l : List Nat, l.foldl (key_box_step seed L) none = none := by
  intro l
  induction l with
  | nil => rfl
  | cons a t ih => rw [List.foldl_cons, key_box_step_none]; exact ih

/-- Invariant of the scheduling loop: with a seed longer than 17 bytes the
loop never reads out of bounds, and after every iteration the box is a
permutation of `0..255` and the seed offset stays below the effective seed
length. -/
theorem setup_key_box_t_some_perm (kd : List Nat) (h17 : 17 < kd.length) :
    ∀ k, k ≤ 256 → ∃ st, setup_key_box_t kd k = some st
      ∧ st.box.Perm (List.range 256) ∧ st.keyOffset < kd.length - 17 := by
  intro k
  induction k with
  | zero =>
    intro _
    exact ⟨⟨List.range 256, 0, 0⟩, by simp [setup_key_box_t], List.Perm.refl _,
      by dsimp only; omega⟩
  | succ k ih =>
    intro hk
    obtain ⟨st, hst, hperm, hoff⟩ := ih (by omega)
    have hlen : st.box.length = 256 := by
      have := hperm.length_eq
      simpa using this
    have hseedlen : (kd.drop 17).length = kd.length - 17 := by simp
    have hofflt : st.keyOffset < (kd.drop 17).length := by omega
    have hkb : (kd.drop 17)[st.keyOffset]? = some (kd.drop 17)[st.keyOffset] :=
      List.getElem?_eq_getElem hofflt
    have hstep : setup_key_box_t kd (k + 1)
        = key_box_step (kd.drop 17) (kd.length - 17) (setup_key_box_t kd k) k := by
      rw [setup_key_box_t, setup_key_box_t, List.range_succ k, List.foldl_append,
        List.foldl_cons, List.foldl_nil]
    rw [hstep, hst]
    simp only [key_box_step, hkb]
    refine ⟨_, rfl, ?_, ?_⟩
    · have hi : k < st.box.length := by omega
      have hc : (st.box.getD k 0 + st.lastByte + (kd.drop 17)[st.keyOffset]) % 256
          < st.box.length := by
        rw [hlen]
        exact Nat.mod_lt _ (by norm_num)
      exact (set_set_swap_perm st.box k _ hi hc).trans hperm
    · dsimp only
      split <;> omega

/-- C1: for every key seed longer than 17 bytes, the key box is a
permutation of the values `0..255` after every one of the 256 swap
iterations of `_setup_key_box`, and the finished box handed to the
descrambler is such a permutation (so in particular before any payload
descrambling runs). -/
theorem ncm_C1_key_box_permutation (kd : List Nat) (h17 : 17 < kd.length) :
    (∀ k, k ≤ 256 → ∃ st, setup_key_box_t kd k = some st
      ∧ st.box.Perm (List.range 256))
    ∧ (∃ box, setup_key_box kd = some box ∧ box.Perm (List.range 256)) := by
  constructor
  · intro k hk
    obtain ⟨st, h1, h2, _⟩ := setup_key_box_t_some_perm kd h17 k hk
    exact ⟨st, h1, h2⟩
  · obtain ⟨st, h1, h2, _⟩ := setup_key_box_t_some_perm kd h17 256 (le_refl _)
    refine ⟨st.box, ?_, h2⟩
    rw [setup_key_box, h1]
    rfl

/-- C1 witness: an 18-byte seed satisfies the length bound and yields a
permutation key box. -/
theorem ncm_C1_key_box_permutation_witness :
    17 < (List.range 18).length
    ∧ (∃ box, setup_key_box (List.range 18) = some box
        ∧ box.Perm (List.range 256)) :=
  ⟨by simp, (ncm_C1_key_box_permutation (List.range 18) (by simp)).2⟩

/-- With an empty effective seed every iteration of the scheduling loop
fails its seed read, so the fold over any non-empty index list is `none`. -/
theorem foldl_key_box_step_nil_seed (L : Nat) :
    ∀ (l : List Nat) (s : Option KBState), l ≠ [] →
      l.foldl (key_box_step [] L) s = none := by
  intro l
  induction l with
  | nil => intro s h; exact absurd rfl h
  | cons a t ih =>
    intro s _
    rw [List.foldl_cons]
    by_cases ht : t = []
    · subst ht
      rw [List.foldl_nil]
      cases s with
      | none => rfl
      | some st => rfl
    · exact ih _ ht

/-- C4: for every unpadded key seed of at most 17 bytes,
`_setup_key_box` performs no rejection at all: it runs straight into the
scheduling loop and its very first seed access
`key_data_use[key_offset] = key_data[17]` is already out of bounds
(modelled as `none`); no `InvalidKeyMaterial` error path exists in the
code. -/
theorem ncm_C4_short_seed_reads_out_of_bounds (kd : List Nat)
    (hshort : kd.length ≤ 17) : setup_key_box kd = none := by
  have hseed : kd.drop 17 = [] := List.drop_eq_nil_of_le hshort
  rw [setup_key_box, setup_key_box_t, hseed,
    foldl_key_box_step_nil_seed (kd.length - 17) (List.range 256) _ (by simp)]
  rfl

/-- C4 witness: a 17-byte seed is not rejected with a key-material error
but drives the loop into an out-of-bounds read. -/
theorem ncm_C4_short_seed_reads_out_of_bounds_witness :
    (List.range 17).length ≤ 17 ∧ setup_key_box (List.range 17) = none :=
  ⟨by simp, ncm_C4_short_seed_reads_out_of_bounds (List.range 17) (by simp)⟩

/-- The keystream byte for intra-chunk offset `i` (NcmFile.cpp lines
333-334): `j = (i+1) & 0xff` and
`key_box[(key_box[j] + key_box[(key_box[j] + j) & 0xff]) & 0xff]`
(`& 0xff` is `% 256`). -/
def keystreamByte (box : List Nat) (i : Nat) : Nat :=
  let j := (i + 1) % 256
  box.getD ((box.getD j 0 + box.getD ((box.getD j 0 + j) % 256) 0) % 256) 0

/-- Model of the per-chunk descramble loop of `NcmFile::_dump_audio_data`
(NcmFile.cpp lines 332-335): `buff[i] ^= keystreamByte` for every
intra-chunk offset `i`; later iterations read only `key_box`, never the
already-written bytes, so the in-place update is a map over offsets. -/
def descramble_chunk (box : List Nat) (buf : List Nat) : List Nat :=
  (List.range buf.length).map (fun i => (buf.getD i 0) ^^^ keystreamByte box i)

/-- The loop together with the table it leaves behind: the source writes
only `buff`, so the table component is returned unchanged. -/
def descramble_chunk_full (box buf : List Nat) : List Nat × List Nat :=
  (box, descramble_chunk box buf)

theorem descramble_chunk_length (box buf : List Nat) :
    (descramble_chunk box buf).length = buf.length := by
  simp [descramble_chunk]

theorem descramble_chunk_getD (box buf : List Nat) (n : Nat) (h : n < buf.length) :
    (descramble_chunk box buf).getD n 0 = buf.getD n 0 ^^^ keystreamByte box n := by
  have h2 : n < (descramble_chunk box buf).length := by
    rw [descramble_chunk_length]; exact h
  rw [getD_eq_getElem_of_lt _ n h2]
  simp only [descramble_chunk, List.getElem_map, List.getElem_range]

/-- C2: for every 256-entry keystream table and every byte buffer, the
payload descrambling transform is self-inverse (XOR with a keystream byte
that depends only on the table and the intra-chunk offset), and the
transform leaves the table unchanged. -/
theorem ncm_C2_descramble_involutive (box buf : List Nat)
    (hbox : box.length = 256) :
    descramble_chunk box (descramble_chunk box buf) = buf
    ∧ (descramble_chunk_full box buf).1 = box := by
  refine ⟨?_, rfl⟩
  apply List.ext_getElem (by simp [descramble_chunk_length])
  intro n h1 h2
  have hn : n < (descramble_chunk box buf).length := by
    rw [descramble_chunk_length]; exact h2
  calc (descramble_chunk box (descramble_chunk box buf))[n]
      = (descramble_chunk box buf).getD n 0 ^^^ keystreamByte box n := by
        simp only [descramble_chunk, List.getElem_map, List.getElem_range]
    _ = (buf.getD n 0 ^^^ keystreamByte box n) ^^^ keystreamByte box n := by
        rw [descramble_chunk_getD box buf n h2]
    _ = buf.getD n 0 := by
        rw [Nat.xor_assoc, Nat.xor_self, Nat.xor_zero]
    _ = buf[n] := getD_eq_getElem_of_lt buf n h2

/-- C2 witness: the identity table is a 256-entry table and the double
transform of `[1, 2, 3]` returns `[1, 2, 3]`. -/
theorem ncm_C2_descramble_involutive_witness :
    (List.range 256).length = 256
    ∧ descramble_chunk (List.range 256)
        (descramble_chunk (List.range 256) [1, 2, 3]) = [1, 2, 3] :=
  ⟨by simp, (ncm_C2_descramble_involutive (List.range 256) [1, 2, 3] (by simp)).1⟩

/-- Model of the rapidjson value tree, reduced to its string fields; the
decoder only ever reads the string field `format`. -/
abbrev Json := List (String × String)

/-- Error outcomes of a single-file decode.  Constructors carry the names
used by the specification; the ones the code never produces
(`truncatedInput`, `invalidKeyMaterial`, `missingFormatField`) are included
so that their absence is statable.  `rapidjsonAssert` models the assertion
failure (undefined behaviour under `NDEBUG`) that rapidjson raises when
`operator[]` is called on a document that is not an object or lacks the
member; `oobRead` models an out-of-bounds buffer read in the source. -/
inductive NcmError where
  | truncatedInput
  | invalidPadding
  | invalidKeyMaterial
  | cipherFailure
  | base64Error
  | jsonParseError
  | missingFormatField
  | outputWriteError
  | rapidjsonAssert
  | oobRead
deriving DecidableEq

/-- External collaborators of the decoder: the OpenSSL EVP AES-128-ECB
decryption (key, ciphertext), the base64 decoder, the rapidjson parser
(string fields only), and whether the cover and audio output files can be
opened. -/
structure Collab where
  aes : List Nat → List Nat → Option (List Nat)
  b64 : List Nat → Option (List Nat)
  jsonParse : List Nat → Option Json
  coverOpenOk : Bool
  audioOpenOk : Bool

/-- An `std::ifstream` over the container bytes: position and failbit. -/
structure ByteStream where
  data : List Nat
  pos : Nat
  fail : Bool
deriving DecidableEq

/-- Model of `ifstream::read(buf, n)`: a healthy stream yields the next
`min n avail` bytes and sets the failbit when fewer than `n` remain; the
callers read into freshly zero-initialised `std::vector`s, so bytes past
`gcount()` are zeros.  A read on an already-failed stream transfers
nothing (its buffer stays zero-initialised). -/
def sread (s : ByteStream) (n : Nat) : List Nat × ByteStream :=
  if s.fail then (List.replicate n 0, s)
  else
    let avail := s.data.length - s.pos
    let got := min n avail
    ((s.data.drop s.pos).take got ++ List.replicate (n - got) 0,
      ⟨s.data, s.pos + got, decide (got < n)⟩)

/-- Model of `seekg(n, ios::cur)` on a healthy stream. -/
def sskip (s : ByteStream) (n : Nat) : ByteStream :=
  if s.fail then s else ⟨s.data, s.pos + n, s.fail⟩

/-- Model of `NcmFile::_read_key_data` (NcmFile.cpp lines 145-178): skip
the 10-byte header, read the little-endian key length, read that many key
bytes (note: without ever checking how many bytes were actually
transferred), XOR with `0x64`, AES-decrypt under the core key, un-pad. -/
def read_key_data (co : Collab) (s0 : ByteStream) : Except NcmError (List Nat × ByteStream) :=
  let s1 := sskip s0 10
  let r2 := sread s1 4
  let key_len := little_int r2.1
  let r3 := sread r2.2 key_len
  let x := r3.1.map (fun b => b ^^^ 0x64)
  match co.aes coreKeyBytes x with
  | none => .error .cipherFailure
  | some dec =>
    match pad_size dec with
    | none => .error .invalidPadding
    | some sz => .ok (dec.take sz, r3.2)

/-- Model of the body of `NcmFile::_read_metadata` for a non-empty
metadata block `m` (NcmFile.cpp lines 225-244): XOR with `0x63`, build
the base64 text as `string(data() + 22, mata_len - 22)` (line 232),
base64-decode, AES-decrypt under the metadata key, un-pad, and build the
JSON text as `string(data() + 6, mata_len_unpad - 6)` (line 243).  The
unsigned counts `mata_len - 22` and `mata_len_unpad - 6` wrap for blocks
shorter than 22 bytes and for unpadded results shorter than 6 bytes, and
the `unpad` copy runs past the decrypted buffer whenever `pad_size`
returned a wrapped value: in those cases the source reads on the order of
`2^32` bytes out of bounds (undefined behaviour, a crash in practice),
modelled as the `oobRead` outcome.  In every other case the C counts
equal exactly the bytes available, so the reads are plain drops.
`rapidjson::Document::Parse` records failure internally instead of
throwing, so parse failure does not produce an error here. -/
def read_metadata_body (co : Collab) (m : List Nat) : Except NcmError (Option Json) :=
  let x := m.map (fun b => b ^^^ 0x63)
  if m.length < 22 then .error .oobRead
  else
    match co.b64 (x.drop 22) with
    | none => .error .base64Error
    | some ct =>
      match co.aes metaKeyBytes ct with
      | none => .error .cipherFailure
      | some dec =>
        match pad_size dec with
        | none => .error .invalidPadding
        | some size =>
          if dec.length < size then .error .oobRead
          else
            let md := dec.take size
            if size < 6 then .error .oobRead
            else .ok (co.jsonParse (md.drop 6))

/-- The metadata unwrap pipeline exactly as the specification words it:
XOR each byte with `0x63`, discard the first 22 bytes, base64-decode the
remainder, AES-decrypt under the fixed metadata key, remove PKCS#7
padding (the program routine), discard the first 6 bytes, parse as JSON. -/
def read_metadata_spec (co : Collab) (m : List Nat) : Except NcmError (Option Json) :=
  let x := m.map (fun b => b ^^^ 0x63)
  match co.b64 (x.drop 22) with
  | none => .error .base64Error
  | some ct =>
    match co.aes metaKeyBytes ct with
    | none => .error .cipherFailure
    | some dec =>
      match pad_size dec with
      | none => .error .invalidPadding
      | some size =>
        .ok (co.jsonParse ((dec.take size).drop 6))

/-- Model of `NcmFile::_read_metadata` (NcmFile.cpp lines 219-245): read
the little-endian metadata length; zero means no metadata and the
rapidjson document stays unparsed (`none`). -/
def read_metadata (co : Collab) (s0 : ByteStream) :
    Except NcmError (Option Json × ByteStream) :=
  let r := sread s0 4
  let n := little_int r.1
  if n = 0 then .ok (none, r.2)
  else
    let rm := sread r.2 n
    match read_metadata_body co rm.1 with
    | .error e => .error e
    | .ok md => .ok (md, rm.2)

/-- The audio read loop of `NcmFile::_dump_audio_data` (NcmFile.cpp lines
327-350): the remaining container bytes are consumed in 32768-byte reads,
each chunk is descrambled with the intra-chunk offset resetting to 0, and
the loop ends at the read that transfers nothing. -/
def descramble_all (box : List Nat) (data : List Nat) : List Nat :=
  if h : data = [] then []
  else descramble_chunk box (data.take 32768) ++ descramble_all box (data.drop 32768)
termination_by data.length
decreasing_by
  simp only [List.length_drop]
  have hp : 0 < data.length := List.length_pos.mpr h
  omega

/-- The unconditional `_metadata["format"].GetString()` access
(NcmFile.cpp line 301): on an unparsed document, or one without a string
member `format`, rapidjson asserts instead of returning. -/
def getFormat : Option Json → Option String
  | none => none
  | some j => j.lookup "format"

/-- The cover block handling of `NcmFile::_dump_audio_data` (NcmFile.cpp
lines 268-298): read the image length; if positive, read the image and try
to open `<base>.jpg` — on failure only a warning is printed and decoding
continues; if zero, perform the no-op `seekg(0)`.  Result: the written
cover (if any), whether a cover open failure was swallowed, and the
stream. -/
def cover_step (co : Collab) (s : ByteStream) : Option (List Nat) × Bool × ByteStream :=
  let r := sread s 4
  let image_len := little_int r.1
  if 0 < image_len then
    let ri := sread r.2 image_len
    if co.coverOpenOk then (some ri.1, false, ri.2)
    else (none, true, ri.2)
  else (none, false, sskip r.2 image_len)

/-- The observable outputs of one decode: the parsed metadata, the cover
file, whether a cover write failure was swallowed, the chosen audio
extension, and the audio bytes. -/
structure DumpOut where
  metadata : Option Json
  cover : Option (List Nat)
  coverSwallowed : Bool
  ext : String
  audio : List Nat
deriving DecidableEq

/-- Model of `NcmFile::_dump_audio_data` (NcmFile.cpp lines 261-359): skip
the 9-byte gap, handle the cover block, resolve the extension from the
metadata (asserting if absent), open the audio output (aborting with an
error if that fails), then descramble the remaining bytes chunk-wise. -/
def dump_audio (co : Collab) (box : List Nat) (md : Option Json) (s0 : ByteStream) :
    Except NcmError DumpOut :=
  let s1 := sskip s0 9
  let cs := cover_step co s1
  match getFormat md with
  | none => .error .rapidjsonAssert
  | some fmt =>
    if co.audioOpenOk then
      let rest := if cs.2.2.fail then [] else cs.2.2.data.drop cs.2.2.pos
      .ok ⟨md, cs.1, cs.2.1, "." ++ fmt, descramble_all box rest⟩
    else .error .outputWriteError

/-- Model of `NcmFile::dump` (NcmFile.cpp lines 119-134), the sequential
orchestrator, together with the elapsed wall-clock time the source reads
purely for its progress log (`chrono::steady_clock` at lines 324 and 352).
The clock readings `tStart`, `tEnd` are the only ambient run state; they
feed only the second (log) component. -/
def ncm_dump (co : Collab) (tStart tEnd : Nat) (container : List Nat) :
    Except NcmError DumpOut × Nat :=
  (match read_key_data co ⟨container, 0, false⟩ with
    | .error e => .error e
    | .ok (kd, s) =>
      match setup_key_box kd with
      | none => .error .oobRead
      | some box =>
        match read_metadata co s with
        | .error e => .error e
        | .ok (md, s2) => dump_audio co box md s2,
    tEnd - tStart)

/-- Concrete collaborators: identity AES and base64, a JSON parser that
yields an empty object, and both output files openable. -/
def collabId : Collab :=
  ⟨fun _ ct => some ct, fun x => some x, fun _ => some [], true, true⟩

/-- A container whose metadata length field is zero: 10 header bytes, a
32-byte key block that (under `collabId`) unwraps to an 18-byte seed,
`metaLen = 0`, the 9-byte gap, and `imageLen = 0`. -/
def containerC3 : List Nat :=
  List.replicate 10 0 ++ [32, 0, 0, 0]
    ++ ((List.range 18 ++ List.replicate 14 14).map (fun b => b ^^^ 0x64))
    ++ [0, 0, 0, 0] ++ List.replicate 9 0 ++ [0, 0, 0, 0]

/-- C8: decoding the same container bytes with the same collaborators (and
so the same fixed cipher keys) twice yields the same result — in
particular byte-identical audio, metadata and cover output — whatever the
clock reads during each run; the clock feeds only the progress log. -/
theorem ncm_C8_deterministic (co : Collab) (container : List Nat)
    (t1 t2 t1' t2' : Nat) :
    (ncm_dump co t1 t2 container).1 = (ncm_dump co t1' t2' container).1 := rfl

/-- C3: on a container with `metaLen = 0` the decode neither fails with a
`MissingFormatField` error nor applies a default extension: the rapidjson
document is never parsed and the unconditional `_metadata["format"]`
access asserts (undefined behaviour under `NDEBUG`) before the audio
output file is opened. -/
theorem ncm_C3_empty_metadata_asserts :
    (ncm_dump collabId 0 0 containerC3).1 = .error .rapidjsonAssert
    ∧ NcmError.rapidjsonAssert ≠ NcmError.missingFormatField :=
  ⟨rfl, by decide⟩

/-- A container whose key length field claims 100 bytes while only 10
remain after it. -/
def containerC5 : List Nat :=
  List.replicate 10 0 ++ [100, 0, 0, 0] ++ List.replicate 10 7

/-- Collaborators whose AES decrypt maps every input to a validly padded
32-byte block (AES is a permutation, so such a ciphertext exists). -/
def collabGarbage : Collab :=
  ⟨fun _ _ => some (List.range 18 ++ List.replicate 14 14), fun x => some x,
    fun _ => some [], true, true⟩

/-- C5: the key read of a truncated container is never detected: the
`ifstream` short read silently sets the failbit and leaves the tail of the
zero-initialised buffer untouched, and `_read_key_data` continues.  With a
cipher that happens to decrypt the garbage to valid padding the unwrap
succeeds outright; with the identity cipher it fails — but with an
`InvalidPadding` error, not `TruncatedInput`.  No `TruncatedInput` path
exists in the code. -/
theorem ncm_C5_truncation_not_detected :
    read_key_data collabGarbage ⟨containerC5, 0, false⟩
      = .ok (List.range 18, ⟨containerC5, 24, true⟩)
    ∧ read_key_data collabId ⟨containerC5, 0, false⟩ = .error .invalidPadding :=
  ⟨rfl, rfl⟩

/-- Away from the out-of-bounds corners, the implemented metadata unwrap
computes exactly the spec-ordered composition; every divergence is an
`oobRead`. -/
theorem read_metadata_body_eq_spec_or_oob (co : Collab) (m : List Nat) :
    read_metadata_body co m = read_metadata_spec co m
    ∨ read_metadata_body co m = .error .oobRead := by
  by_cases h22 : m.length < 22
  · right
    simp [read_metadata_body, if_pos h22]
  · simp only [read_metadata_body, read_metadata_spec, if_neg h22]
    cases hb : co.b64 ((m.map (fun b => b ^^^ 0x63)).drop 22) with
    | none => left; rfl
    | some ct =>
      dsimp only
      cases ha : co.aes metaKeyBytes ct with
      | none => left; rfl
      | some dec =>
        dsimp only
        cases hp : pad_size dec with
        | none => left; rfl
        | some size =>
          dsimp only
          by_cases hlen : dec.length < size
          · right
            rw [if_pos hlen]
          · rw [if_neg hlen]
            by_cases h6 : size < 6
            · right
              rw [if_pos h6]
            · left
              rw [if_neg h6]

/-- C7 counterexample: on the one-byte metadata block `[0]` the claimed
pipeline would discard 22 bytes and base64-decode the (empty) remainder
— under identity collaborators that run succeeds — but the code instead
builds `string(data() + 22, 1 - 22)`, whose wrapped unsigned count makes
it read on the order of `2^32` bytes out of bounds. -/
theorem ncm_C7_metadata_pipeline_counterexample :
    read_metadata_body collabId [0] = .error .oobRead
    ∧ read_metadata_spec collabId [0] = .ok (some [])
    ∧ (Except.error NcmError.oobRead : Except NcmError (Option Json))
        ≠ .ok (some []) :=
  ⟨rfl, rfl, fun h => Except.noConfusion h⟩

/-- C7 (amended): whenever the unwrap does not run off a buffer — the
block has at least 22 bytes, the un-padding size does not wrap past the
decrypted buffer, and the unpadded result has at least 6 bytes — the
implemented pipeline equals, for any collaborators, exactly the
spec-ordered composition: XOR every byte with `0x63`, discard the first
22 bytes, base64-decode the remainder, AES-decrypt under the fixed
metadata key, remove PKCS#7 padding (the program routine), discard the
first 6 bytes, parse the rest as JSON.  Any block shorter than 22 bytes
instead sends the code into an out-of-bounds read. -/
theorem ncm_C7_metadata_pipeline_amended :
    (∀ (co : Collab) (m : List Nat), read_metadata_body co m ≠ .error .oobRead →
        read_metadata_body co m = read_metadata_spec co m)
    ∧ (∀ (co : Collab) (m : List Nat), m.length < 22 →
        read_metadata_body co m = .error .oobRead) := by
  constructor
  · intro co m hne
    rcases read_metadata_body_eq_spec_or_oob co m with h | h
    · exact h
    · exact absurd h hne
  · intro co m h22
    simp [read_metadata_body, if_pos h22]

/-- C7 witness: the 29-byte block that unwraps cleanly under identity
collaborators satisfies the pipeline equality, and the one-byte block
falls into the out-of-bounds case. -/
theorem ncm_C7_metadata_pipeline_amended_witness :
    read_metadata_body collabId ((List.replicate 28 0 ++ [1]).map (fun b => b ^^^ 0x63))
      = read_metadata_spec collabId ((List.replicate 28 0 ++ [1]).map (fun b => b ^^^ 0x63))
    ∧ read_metadata_body collabId [0] = .error .oobRead :=
  ⟨ncm_C7_metadata_pipeline_amended.1 collabId _
      (by intro h; exact Except.noConfusion h),
   ncm_C7_metadata_pipeline_amended.2 collabId [0] (by decide)⟩

/-- Collaborators where the cover output file cannot be opened but the
audio output file can; AES and base64 are identities and JSON parsing
yields `format = mp3`. -/
def collabC9 : Collab :=
  ⟨fun _ ct => some ct, fun x => some x, fun _ => some [("format", "mp3")],
    false, true⟩

/-- A well-formed container with a 1-byte cover image and a 2-byte audio
payload. -/
def containerC9 : List Nat :=
  List.replicate 10 0 ++ [32, 0, 0, 0]
    ++ ((List.range 18 ++ List.replicate 14 14).map (fun b => b ^^^ 0x64))
    ++ [29, 0, 0, 0] ++ ((List.replicate 28 0 ++ [1]).map (fun b => b ^^^ 0x63))
    ++ List.replicate 9 0 ++ [1, 0, 0, 0] ++ [171] ++ [5, 6]

/-- Whether a decode result is a success in which a cover write failure
was swallowed. -/
def okWithSwallowedCoverFailure : Except NcmError DumpOut → Bool
  | .ok o => o.coverSwallowed
  | .error _ => false

/-- C9 counterexample: on a container with a cover image whose `.jpg`
output cannot be opened, the decode does not abort with an
`OutputWriteError` — it prints a warning and completes successfully, the
failure swallowed inside the core (NcmFile.cpp lines 292-294). -/
theorem ncm_C9_cover_failure_swallowed_counterexample :
    okWithSwallowedCoverFailure (ncm_dump collabC9 0 0 containerC9).1 = true := rfl

/-- C9 (amended): when the audio output file cannot be opened the decode
aborts with an output-write error (NcmFile.cpp lines 315-318), but a cover
image open failure never aborts: with the audio output openable the dump
succeeds regardless of the cover outcome, the cover failure being only
logged. -/
theorem ncm_C9_output_write_amended (co : Collab) (box : List Nat)
    (md : Option Json) (s : ByteStream) (fmt : String)
    (hfmt : getFormat md = some fmt) :
    (co.audioOpenOk = false → dump_audio co box md s = .error .outputWriteError)
    ∧ (co.audioOpenOk = true → (dump_audio co box md s).isOk = true) := by
  constructor
  · intro h
    simp [dump_audio, hfmt, h]
  · intro h
    simp [dump_audio, hfmt, h, Except.isOk, Except.toBool]

/-- C9 witness: with `collabC9` (cover unopenable, audio openable) and
parsed metadata naming `mp3`, the dump succeeds. -/
theorem ncm_C9_output_write_amended_witness :
    getFormat (some [("format", "mp3")]) = some "mp3"
    ∧ (dump_audio collabC9 [] (some [("format", "mp3")]) ⟨[], 0, false⟩).isOk
        = true :=
  ⟨rfl, (ncm_C9_output_write_amended collabC9 [] (some [("format", "mp3")])
    ⟨[], 0, false⟩ "mp3" rfl).2 rfl⟩
